import Mathlib

/-!
Verification of the PaperDigest pipeline (src/main.py).

The pipeline fetches recent arXiv papers per keyword, fetches Hugging Face
daily trending papers, deduplicates the two lists by lower-cased title,
summarizes each paper with a language model, and posts the results to a
webhook. The definitions below are a shallow embedding of the Python code:
network calls and the language-model request are passed in as functions
returning `Except` (an exception is the `.error` case), timestamps are
integer seconds, and `timedelta.days` is floor division by 86400.
-/

/-- Structural model of Python str.startswith restricted to char lists:
`listIsPre p s` is true when `p` is an initial segment of `s`. -/
def listIsPre : List Char → List Char → Bool
  | [], _ => true
  | _ :: _, [] => false
  | c :: cs, d :: ds => c == d && listIsPre cs ds

/-- Model of Python `s.startswith(p)`. -/
def strStartsWith (s p : String) : Bool := listIsPre p.data s.data

/-- Model of Python `s.lower()` (per-character lowering). -/
def strToLower (s : String) : String := ⟨s.data.map Char.toLower⟩

/-- One arXiv search result, with the fields read by the code. `published`
is the publication timestamp in seconds. -/
structure ArxivResult where
  entry_id : String
  published : Int
  primary_category : String
  title : String
  summary : String
  authors : List String
deriving DecidableEq

/-- The normalized paper dict built by both fetchers. -/
structure PaperRecord where
  source : String
  title : String
  url : String
  abstract : String
  authors : String
  color : Nat
deriving DecidableEq

/-- Model of `(now - published).days`: Python `timedelta.days` floors, so
this is floor division of the difference in seconds by 86400. -/
def daysBetween (now published : Int) : Int :=
  (now - published).fdiv 86400

/-- The recency filter of `get_arxiv_papers_by_keywords`: the code skips a
result exactly when `(now - result.published).days > 2`. -/
def recencyOk (now : Int) (r : ArxivResult) : Bool :=
  !(decide (daysBetween now r.published > 2))

/-- The category filter: `result.primary_category.startswith(('cs', 'stat'))`. -/
def categoryOk (r : ArxivResult) : Bool :=
  strStartsWith r.primary_category "cs" || strStartsWith r.primary_category "stat"

/-- All three per-result filters of the keyword loop, in source order:
dedup on `entry_id`, recency, category. -/
def passesFilters (now : Int) (seen : List String) (r : ArxivResult) : Bool :=
  !(seen.contains r.entry_id) && recencyOk now r && categoryOk r

/-- The dict appended by `get_arxiv_papers_by_keywords` for an accepted result. -/
def mkPaperRecord (r : ArxivResult) : PaperRecord :=
  { source := "Arxiv [" ++ r.primary_category ++ "]"
    title := r.title
    url := r.entry_id
    abstract := r.summary
    authors := String.intercalate ", " (r.authors.take 3) ++ " et al."
    color := 16711680 }

/-- The inner `for result in ...` loop for one keyword: skip results failing
a filter, accept the first passing result and break. -/
def scanResults (now : Int) (seen : List String) : List ArxivResult → Option ArxivResult
  | [] => none
  | r :: rs => if passesFilters now seen r then some r else scanResults now seen rs

/-- The outer keyword loop of `get_arxiv_papers_by_keywords`. `sr` maps a
keyword to its search results; an exception anywhere in the fetch makes the
whole call an `.error`, discarding everything collected so far. -/
def fetchLoopE (now : Int) (sr : String → Except String (List ArxivResult)) :
    List String → List String → Except String (List PaperRecord)
  | [], _ => .ok []
  | k :: ks, seen =>
    match sr k with
    | .error e => .error e
    | .ok results =>
      match scanResults now seen results with
      | none => fetchLoopE now sr ks seen
      | some r => (fetchLoopE now sr ks (r.entry_id :: seen)).map (mkPaperRecord r :: ·)

/-- `get_arxiv_papers_by_keywords`: runs the keyword loop with an empty
`seen_ids` set and an empty `collected_papers` list. -/
def get_arxiv_papers_by_keywords (now : Int) (sr : String → Except String (List ArxivResult))
    (keywords : List String) : Except String (List PaperRecord) :=
  fetchLoopE now sr keywords []

/-- The `try: all_papers.extend(get_arxiv_papers_by_keywords()) except: print`
block of `__main__`: on exception `all_papers` is left unchanged. -/
def keywordPhase (now : Int) (sr : String → Except String (List ArxivResult))
    (keywords : List String) (allPapers : List PaperRecord) : List PaperRecord :=
  match get_arxiv_papers_by_keywords now sr keywords with
  | .ok ps => allPapers ++ ps
  | .error _ => allPapers

/-- The deduplication loop of `__main__`: `existing` is the set of
lower-cased keyword-paper titles, built once before the loop and never
extended inside it; each surviving trending paper is appended to `acc`. -/
def dedupLoop (existing : List String) (acc : List PaperRecord) :
    List PaperRecord → List PaperRecord
  | [] => acc
  | h :: hs =>
    if existing.contains (strToLower h.title) then dedupLoop existing acc hs
    else dedupLoop existing (acc ++ [h]) hs

/-- Lines 191-194 of `__main__`: build the lowered-title set from the
keyword papers, then append the surviving trending papers. -/
def mergePapers (kwPapers hfPapers : List PaperRecord) : List PaperRecord :=
  dedupLoop (kwPapers.map (fun p => strToLower p.title)) kwPapers hfPapers

/-- The `paper` sub-dict of a Hugging Face daily-papers item, with the
fields the code reads (defaults already applied). -/
structure HFPaperInfo where
  title : String
  id : String
  summary : String
deriving DecidableEq

/-- One item of the daily-papers JSON array: `upvotes` (default 0) and the
`paper` sub-dict (`none` models a missing or empty, hence falsy, dict). -/
structure HFItem where
  upvotes : Nat
  paper : Option HFPaperInfo
deriving DecidableEq

/-- The JSON body of a trending response: either a list of items or some
other JSON value with its Python truthiness. -/
inductive JsonVal where
  | arr (items : List HFItem)
  | other (truthy : Bool)
deriving DecidableEq

/-- An HTTP response: status code plus the outcome of `resp.json()`
(`.error` models a JSON decoding exception). -/
structure Resp where
  status_code : Nat
  jsonR : Except String JsonVal

/-- Python falsiness of a JSON value (`not resp.json()`). -/
def jsonFalsy : JsonVal → Bool
  | .arr items => items.isEmpty
  | .other t => !t

/-- The daily-papers URL for a date. -/
def hfUrl (date : String) : String :=
  "https://huggingface.co/api/daily_papers?date=" ++ date

/-- The comparison used for `sorted(data, key=lambda x: x.get('upvotes', 0),
reverse=True)`: `a` goes before `b` when `b`'s upvotes do not exceed `a`'s. -/
def hfLe (a b : HFItem) : Prop := b.upvotes ≤ a.upvotes

instance : DecidableRel hfLe := fun a b => Nat.decLe b.upvotes a.upvotes

instance : IsTotal HFItem hfLe := ⟨fun a b => Nat.le_total b.upvotes a.upvotes⟩

instance : IsTrans HFItem hfLe := ⟨fun _ _ _ hab hbc => Nat.le_trans hbc hab⟩

/-- The body of the mapping loop in `get_huggingface_daily_papers`: items
with a falsy `paper` dict are skipped (`continue`). -/
def mkHFRecord (item : HFItem) : Option PaperRecord :=
  match item.paper with
  | none => none
  | some info =>
    some { source := "Hugging Face 🔥"
           title := info.title
           url := "https://huggingface.co/papers/" ++ info.id
           abstract := info.summary
           authors := "Community Trending"
           color := 16776960 }

/-- `sorted(data, key=upvotes, reverse=True)[:max_results]`: Python's sort
is stable, and so is insertion sort with a total preorder, so the two agree. -/
def hfTopItems (data : List HFItem) (maxResults : Nat) : List HFItem :=
  (List.insertionSort hfLe data).take maxResults

/-- From `data = resp.json()` to the returned list: non-list JSON yields
`[]`, otherwise sort, truncate and map. A JSON exception propagates. -/
def hfProcess (resp : Resp) (maxResults : Nat) : Except String (List PaperRecord) :=
  match resp.jsonR with
  | .error e => .error e
  | .ok (.other _) => .ok []
  | .ok (.arr items) => .ok ((hfTopItems items maxResults).filterMap mkHFRecord)

/-- The body of the `try` block of `get_huggingface_daily_papers`, together
with the list of URLs requested. `http` maps a URL to its response (or to a
raised exception). The retry condition short-circuits: `resp.json()` is only
consulted when the status code is 200. -/
def hfRun (http : String → Except String Resp) (today yesterday : String) (maxResults : Nat) :
    List String × Except String (List PaperRecord) :=
  match http (hfUrl today) with
  | .error e => ([hfUrl today], .error e)
  | .ok resp1 =>
    let condE : Except String Bool :=
      if resp1.status_code ≠ 200 then .ok true
      else match resp1.jsonR with
        | .error e => .error e
        | .ok j1 => .ok (jsonFalsy j1)
    match condE with
    | .error e => ([hfUrl today], .error e)
    | .ok true =>
      match http (hfUrl yesterday) with
      | .error e => ([hfUrl today, hfUrl yesterday], .error e)
      | .ok resp2 => ([hfUrl today, hfUrl yesterday], hfProcess resp2 maxResults)
    | .ok false => ([hfUrl today], hfProcess resp1 maxResults)

/-- `get_huggingface_daily_papers`: the surrounding `except Exception`
turns any raised exception into an empty list. -/
def get_huggingface_daily_papers (http : String → Except String Resp)
    (today yesterday : String) (maxResults : Nat) : List PaperRecord :=
  match (hfRun http today yesterday maxResults).2 with
  | .ok ps => ps
  | .error _ => []

/-- The f-string prompt of `summarize_with_ai`. -/
def buildPrompt (paper : PaperRecord) : String :=
  "\n    You are a research assistant. Summarize this paper for an expert.\n    \n    Paper Title: "
    ++ paper.title
    ++ "\n    Abstract: "
    ++ paper.abstract
    ++ "\n    \n    Format output strictly:\n    **TL;DR**: [One concise sentence]\n    **Key Innovation**: [1-2 bullet points on technical novelty]\n    **Performance**: [Main metric or result if available]\n    "

/-- `summarize_with_ai`: `chatComplete` maps the prompt to the completion
content, or to a raised exception, which the `except` branch turns into the
fallback string. -/
def summarize_with_ai (chatComplete : String → Except String String)
    (paper : PaperRecord) : String :=
  match chatComplete (buildPrompt paper) with
  | .ok content => content
  | .error e => "Summary failed: " ++ e

/-- Concrete arXiv result published 216000 seconds (2.5 days) before the
reference time 300000 used below. -/
def rStale : ArxivResult :=
  { entry_id := "http://arxiv.org/abs/2401.00001v1"
    published := 84000
    primary_category := "cs.CL"
    title := "Stale Paper"
    summary := "An abstract."
    authors := ["A One", "B Two"] }

/-- Search function returning only `rStale` for every keyword. -/
def srStale : String → Except String (List ArxivResult) := fun _ => .ok [rStale]

/-- Concrete fresh arXiv result (50000 seconds old at time 300000). -/
def rFresh : ArxivResult :=
  { entry_id := "http://arxiv.org/abs/2401.00002v1"
    published := 250000
    primary_category := "cs.LG"
    title := "Fresh Paper"
    summary := "Another abstract."
    authors := ["C Three"] }

/-- Search function returning only `rFresh` for every keyword. -/
def srFresh : String → Except String (List ArxivResult) := fun _ => .ok [rFresh]

/-- Concrete fresh result whose primary category is outside cs and stat. -/
def rEcon : ArxivResult :=
  { entry_id := "http://arxiv.org/abs/2401.00003v1"
    published := 299000
    primary_category := "econ.GN"
    title := "Econ Paper"
    summary := "An economics abstract."
    authors := ["D Four"] }

/-- Search function returning the economics result before the fresh one. -/
def srMixed : String → Except String (List ArxivResult) := fun _ => .ok [rEcon, rFresh]

/-- Search function raising an exception for every keyword after the first. -/
def srPartial : String → Except String (List ArxivResult) :=
  fun k => if k = "Agents" then .ok [rFresh] else .error "arxiv HTTPError"

/-- Keyword-sourced paper titled in lower case. -/
def kwFoo : PaperRecord :=
  { source := "Arxiv [cs.CL]", title := "foo bar", url := "u1"
    abstract := "a1", authors := "A et al.", color := 16711680 }

/-- Trending paper whose title differs from `kwFoo` only in case. -/
def hfFoo : PaperRecord :=
  { source := "Hugging Face 🔥", title := "Foo Bar", url := "u2"
    abstract := "a2", authors := "Community Trending", color := 16776960 }

/-- First of two trending papers sharing a lower-cased title. -/
def hfDup1 : PaperRecord :=
  { source := "Hugging Face 🔥", title := "Same Title", url := "u3"
    abstract := "a3", authors := "Community Trending", color := 16776960 }

/-- Second of two trending papers sharing a lower-cased title. -/
def hfDup2 : PaperRecord :=
  { source := "Hugging Face 🔥", title := "same title", url := "u4"
    abstract := "a4", authors := "Community Trending", color := 16776960 }

/-- A daily-papers item with the given upvote count and title. -/
def hfItemEx (u : Nat) (t : String) : HFItem :=
  { upvotes := u, paper := some { title := t, id := "i" ++ t, summary := "s" ++ t } }

/-- Five trending items with upvote counts 3, 9, 1, 7, 2, in that order. -/
def hfDataEx : List HFItem :=
  [hfItemEx 3 "a", hfItemEx 9 "b", hfItemEx 1 "c", hfItemEx 7 "d", hfItemEx 2 "e"]

/-- Endpoint answering every request with status 200 and `hfDataEx`. -/
def httpEx5 : String → Except String Resp :=
  fun _ => .ok { status_code := 200, jsonR := .ok (.arr hfDataEx) }

/-- A non-success (500) response carrying a non-empty body. -/
def resp500 : Resp := { status_code := 500, jsonR := .ok (.arr hfDataEx) }

theorem scanResults_eq_find (now : Int) (seen : List String) (rs : List ArxivResult) :
    scanResults now seen rs = rs.find? (passesFilters now seen) := by
  induction rs with
  | nil => rfl
  | cons r rs ih =>
    rw [scanResults, List.find?_cons, ih]
    cases passesFilters now seen r <;> simp

theorem scanResults_some_passes (now : Int) (seen : List String) (rs : List ArxivResult)
    (r : ArxivResult) (h : scanResults now seen rs = some r) :
    passesFilters now seen r = true := by
  rw [scanResults_eq_find] at h
  exact List.find?_some h

theorem passes_categoryOk (now : Int) (seen : List String) (r : ArxivResult)
    (h : passesFilters now seen r = true) : categoryOk r = true := by
  rw [passesFilters] at h
  simp only [Bool.and_eq_true] at h
  exact h.2

theorem fetchLoopE_length (now : Int) (sr : String → Except String (List ArxivResult)) :
    ∀ (ks seen : List String) (ps : List PaperRecord),
      fetchLoopE now sr ks seen = .ok ps → ps.length ≤ ks.length := by
  intro ks
  induction ks with
  | nil => intro seen ps h; simp [fetchLoopE] at h; simp [← h]
  | cons k ks ih =>
    intro seen ps h
    rw [fetchLoopE] at h
    cases hsr : sr k with
    | error e => rw [hsr] at h; exact absurd h (by simp)
    | ok results =>
      rw [hsr] at h
      dsimp only at h
      cases hscan : scanResults now seen results with
      | none =>
        rw [hscan] at h
        exact (ih seen ps h).trans (by simp)
      | some r =>
        rw [hscan] at h
        dsimp only at h
        cases hrec : fetchLoopE now sr ks (r.entry_id :: seen) with
        | error e => rw [hrec] at h; exact absurd h (by simp [Except.map])
        | ok ps' =>
          rw [hrec] at h
          simp only [Except.map, Except.ok.injEq] at h
          subst h
          simpa using Nat.succ_le_succ (ih _ ps' hrec)

theorem fetchLoopE_mem_categoryOk (now : Int) (sr : String → Except String (List ArxivResult)) :
    ∀ (ks seen : List String) (ps : List PaperRecord),
      fetchLoopE now sr ks seen = .ok ps →
      ∀ p ∈ ps, ∃ r, categoryOk r = true ∧ p = mkPaperRecord r := by
  intro ks
  induction ks with
  | nil =>
    intro seen ps h p hp
    rw [fetchLoopE] at h
    cases h
    simp at hp
  | cons k ks ih =>
    intro seen ps h p hp
    rw [fetchLoopE] at h
    cases hsr : sr k with
    | error e => rw [hsr] at h; exact absurd h (by simp)
    | ok results =>
      rw [hsr] at h
      dsimp only at h
      cases hscan : scanResults now seen results with
      | none =>
        rw [hscan] at h
        exact ih seen ps h p hp
      | some r =>
        rw [hscan] at h
        dsimp only at h
        cases hrec : fetchLoopE now sr ks (r.entry_id :: seen) with
        | error e => rw [hrec] at h; exact absurd h (by simp [Except.map])
        | ok ps' =>
          rw [hrec] at h
          simp only [Except.map, Except.ok.injEq] at h
          subst h
          rcases List.mem_cons.mp hp with hpe | hpm
          · exact ⟨r, passes_categoryOk now seen r
              (scanResults_some_passes now seen results r hscan), hpe⟩
          · exact ih _ ps' hrec p hpm

theorem mkPaperRecord_category_eq (r r' : ArxivResult)
    (h : mkPaperRecord r = mkPaperRecord r') :
    r.primary_category = r'.primary_category := by
  have hs : (mkPaperRecord r).source = (mkPaperRecord r').source := by rw [h]
  simp only [mkPaperRecord] at hs
  have hd := congrArg String.data hs
  simp only [String.data_append] at hd
  simp at hd
  exact String.ext hd

theorem categoryOk_of_mk_eq (r r' : ArxivResult) (h : mkPaperRecord r = mkPaperRecord r') :
    categoryOk r = categoryOk r' := by
  rw [categoryOk, categoryOk, mkPaperRecord_category_eq r r' h]

theorem dedupLoop_acc (existing : List String) :
    ∀ (hs : List PaperRecord) (acc : List PaperRecord),
      dedupLoop existing acc hs = acc ++ dedupLoop existing [] hs := by
  intro hs
  induction hs with
  | nil => intro acc; simp [dedupLoop]
  | cons h hs ih =>
    intro acc
    rw [dedupLoop, dedupLoop]
    cases hc : existing.contains (strToLower h.title)
    · simp only [Bool.false_eq_true, if_false]
      rw [ih (acc ++ [h]), show ([] : List PaperRecord) ++ [h] = [h] from rfl, ih [h]]
      simp
    · simp only [if_true]
      exact ih acc

theorem dedupLoop_eq_filter (existing : List String) :
    ∀ hs : List PaperRecord,
      dedupLoop existing [] hs =
        hs.filter (fun h => !(existing.contains (strToLower h.title))) := by
  intro hs
  induction hs with
  | nil => rfl
  | cons h hs ih =>
    rw [dedupLoop, List.filter_cons]
    cases hc : existing.contains (strToLower h.title) <;>
      simp only [hc, Bool.not_false, Bool.not_true, Bool.false_eq_true, if_false, if_true]
    · rw [dedupLoop_acc, ih]; simp
    · exact ih

theorem mergePapers_eq (kw hf : List PaperRecord) :
    mergePapers kw hf =
      kw ++ hf.filter
        (fun h => !((kw.map (fun p => strToLower p.title)).contains (strToLower h.title))) := by
  rw [mergePapers, dedupLoop_acc, dedupLoop_eq_filter]

theorem not_contains_lowered (kw : List PaperRecord) (t : String) :
    (!((kw.map (fun p => strToLower p.title)).contains t)) =
      decide (∀ p ∈ kw, strToLower p.title ≠ t) := by
  rw [Bool.eq_iff_iff]
  simp [List.mem_map]

theorem mergePapers_char (kw hf : List PaperRecord) :
    mergePapers kw hf =
      kw ++ hf.filter (fun h => decide (∀ p ∈ kw, strToLower p.title ≠ strToLower h.title)) := by
  rw [mergePapers_eq]
  congr 1
  apply List.filter_congr
  intro h _
  exact not_contains_lowered kw (strToLower h.title)

theorem hfTopItems_pairwise (data : List HFItem) (n : Nat) :
    (hfTopItems data n).Pairwise (fun a b => b.upvotes ≤ a.upvotes) :=
  (List.sorted_insertionSort hfLe data).sublist (List.take_sublist n _)

theorem hfTopItems_length (data : List HFItem) (n : Nat) :
    (hfTopItems data n).length ≤ n := by
  rw [hfTopItems, List.length_take]
  exact Nat.min_le_left n _

/-- Claim C1 (code bug in the recency filter): the spec says a paper
published more than 2 days before the current time is never included, and
the code's own comment says the window is 48 hours, but the code only skips
a result when the floored day difference exceeds 2. At reference time
300000, `rStale` was published 216000 seconds (2.5 days, more than 2 days)
earlier, yet `get_arxiv_papers_by_keywords` returns it. -/
theorem arxiv_recency_filter_admits_stale_paper :
    300000 - rStale.published > 2 * 86400 ∧
    get_arxiv_papers_by_keywords 300000 srStale ["Agents"] = .ok [mkPaperRecord rStale] :=
  ⟨by decide, rfl⟩

/-- Claim C2: the keyword fetcher returns at most one record per keyword —
the length of any successfully returned list is bounded by the number of
keywords — and the per-keyword scan accepts exactly the first result that
passes the dedup, recency and category filters, ignoring everything after
it (it equals `List.find?`). -/
theorem arxiv_at_most_one_record_per_keyword (now : Int)
    (sr : String → Except String (List ArxivResult)) (ks : List String) :
    (∀ ps, get_arxiv_papers_by_keywords now sr ks = .ok ps → ps.length ≤ ks.length) ∧
    (∀ (seen : List String) (rs : List ArxivResult),
      scanResults now seen rs = rs.find? (passesFilters now seen)) :=
  ⟨fun ps h => fetchLoopE_length now sr ks [] ps h,
   fun seen rs => scanResults_eq_find now seen rs⟩

/-- Witness for claim C2: with two keywords whose searches both return the
single fresh paper, the fetcher returns one record (at most one per
keyword, and the second keyword is blocked by the dedup filter), and the
scan of a one-element result list is its first passing element. -/
theorem arxiv_at_most_one_record_per_keyword_witness :
    ([mkPaperRecord rFresh] : List PaperRecord).length ≤ (["Agents", "RAG"] : List String).length ∧
    scanResults 300000 [] [rFresh] = [rFresh].find? (passesFilters 300000 []) :=
  ⟨(arxiv_at_most_one_record_per_keyword 300000 srFresh ["Agents", "RAG"]).1
      [mkPaperRecord rFresh] rfl,
   (arxiv_at_most_one_record_per_keyword 300000 srFresh ["Agents", "RAG"]).2 [] [rFresh]⟩

/-- Claim C3: a result whose primary category starts with neither "cs" nor
"stat" is never included: its record is not a member of any list the
keyword fetcher successfully returns. -/
theorem arxiv_never_includes_non_cs_stat (now : Int)
    (sr : String → Except String (List ArxivResult)) (ks : List String)
    (r : ArxivResult) (hcat : categoryOk r = false) (ps : List PaperRecord)
    (hok : get_arxiv_papers_by_keywords now sr ks = .ok ps) :
    mkPaperRecord r ∉ ps := by
  intro hmem
  obtain ⟨r', hcat', heq⟩ := fetchLoopE_mem_categoryOk now sr ks [] ps hok _ hmem
  rw [categoryOk_of_mk_eq r r' heq, hcat'] at hcat
  exact Bool.true_eq_false.mp hcat

/-- Witness for claim C3: the search for "Agents" returns the economics
paper first and the fresh cs paper second; the fetcher skips the economics
paper and returns only the cs one. -/
theorem arxiv_never_includes_non_cs_stat_witness :
    categoryOk rEcon = false ∧ mkPaperRecord rEcon ∉ [mkPaperRecord rFresh] :=
  ⟨by decide,
   arxiv_never_includes_non_cs_stat 300000 srMixed ["Agents"] rEcon (by decide)
     [mkPaperRecord rFresh] rfl⟩

/-- Claim C4: the merged list is all keyword papers in order, followed by
exactly those trending papers whose lower-cased title equals no keyword
paper's lower-cased title, in order; in particular trending "Foo Bar" is
dropped when keyword "foo bar" is present. -/
theorem merge_is_keyword_then_surviving_trending :
    (∀ kw hf : List PaperRecord,
      mergePapers kw hf =
        kw ++ hf.filter (fun h => decide (∀ p ∈ kw, strToLower p.title ≠ strToLower h.title))) ∧
    mergePapers [kwFoo] [hfFoo] = [kwFoo] :=
  ⟨mergePapers_char, rfl⟩

/-- Claim C10: the dedup set is built before the merge loop and never
extended during it, so two trending papers sharing a lower-cased title that
matches no keyword paper both survive into the merged list. -/
theorem merge_keeps_duplicate_trending_titles (kw hf : List PaperRecord)
    (t1 t2 : PaperRecord) (h1 : t1 ∈ hf) (h2 : t2 ∈ hf)
    (hshare : strToLower t1.title = strToLower t2.title)
    (hno : ∀ p ∈ kw, strToLower p.title ≠ strToLower t1.title) :
    t1 ∈ mergePapers kw hf ∧ t2 ∈ mergePapers kw hf := by
  rw [mergePapers_char]
  constructor
  · exact List.mem_append_right _ (List.mem_filter.2 ⟨h1, by simpa using hno⟩)
  · refine List.mem_append_right _ (List.mem_filter.2 ⟨h2, ?_⟩)
    rw [decide_eq_true_iff]
    rw [← hshare]
    exact hno

/-- Witness for claim C10: trending papers "Same Title" and "same title",
neither matching the keyword paper "foo bar", both appear in the merge. -/
theorem merge_keeps_duplicate_trending_titles_witness :
    hfDup1 ∈ mergePapers [kwFoo] [hfDup1, hfDup2] ∧
    hfDup2 ∈ mergePapers [kwFoo] [hfDup1, hfDup2] :=
  merge_keeps_duplicate_trending_titles [kwFoo] [hfDup1, hfDup2] hfDup1 hfDup2
    (by simp) (by simp) (by decide) (by decide)

/-- Claim C5: the trending fetcher's candidate list is the input sorted
descending by upvote count and truncated to at most the requested count,
and on the concrete endpoint returning upvotes [3, 9, 1, 7, 2] with count
2 the full fetcher outputs the records of the papers with 9 and 7 upvotes,
in that order. -/
theorem hf_sorted_descending_and_capped :
    (∀ (data : List HFItem) (n : Nat),
        (hfTopItems data n).Pairwise (fun a b => b.upvotes ≤ a.upvotes) ∧
        (hfTopItems data n).length ≤ n) ∧
    get_huggingface_daily_papers httpEx5 "2026-10-12" "2026-10-11" 2 =
      [{ source := "Hugging Face 🔥", title := "b", url := "https://huggingface.co/papers/ib"
         abstract := "sb", authors := "Community Trending", color := 16776960 },
       { source := "Hugging Face 🔥", title := "d", url := "https://huggingface.co/papers/id"
         abstract := "sd", authors := "Community Trending", color := 16776960 }] :=
  ⟨fun data n => ⟨hfTopItems_pairwise data n, hfTopItems_length data n⟩, rfl⟩

/-- Claim C6: when the response for today's date comes back with a
non-success status or a falsy (empty) JSON body, the trending fetcher
issues exactly one further request, for yesterday's date, and no request
after that, whatever the second response holds: the request trace is
exactly the two URLs. -/
theorem hf_retries_exactly_once_with_yesterday (http : String → Except String Resp)
    (t y : String) (n : Nat) (resp1 : Resp)
    (hresp : http (hfUrl t) = .ok resp1)
    (hbad : resp1.status_code ≠ 200 ∨ ∃ j, resp1.jsonR = .ok j ∧ jsonFalsy j = true) :
    (hfRun http t y n).1 = [hfUrl t, hfUrl y] := by
  rw [hfRun, hresp]
  dsimp only
  rcases hbad with hs | ⟨j, hj, hfalsy⟩
  · rw [if_pos hs]
    cases http (hfUrl y) <;> rfl
  · by_cases hs : resp1.status_code ≠ 200
    · rw [if_pos hs]
      cases http (hfUrl y) <;> rfl
    · rw [if_neg hs, hj]
      dsimp only
      rw [hfalsy]
      cases http (hfUrl y) <;> rfl

/-- Witness for claim C6: an endpoint answering every request with status
500 makes the fetcher request today's URL and then exactly yesterday's. -/
theorem hf_retries_exactly_once_with_yesterday_witness :
    (hfRun (fun _ => .ok resp500) "2026-10-12" "2026-10-11" 3).1 =
      [hfUrl "2026-10-12", hfUrl "2026-10-11"] :=
  hf_retries_exactly_once_with_yesterday (fun _ => .ok resp500) "2026-10-12" "2026-10-11"
    3 resp500 rfl (Or.inl (by decide))

/-- Claim C7: any exception raised inside the trending fetcher (network
call, JSON decoding or mapping) is caught by its `except` block and the
fetcher returns the empty list instead of propagating it. -/
theorem hf_exception_gives_empty_list (http : String → Except String Resp)
    (t y : String) (n : Nat) (e : String)
    (h : (hfRun http t y n).2 = .error e) :
    get_huggingface_daily_papers http t y n = [] := by
  rw [get_huggingface_daily_papers, h]

/-- Witness for claim C7: an endpoint whose request raises an exception
makes the fetcher return the empty list. -/
theorem hf_exception_gives_empty_list_witness :
    get_huggingface_daily_papers (fun _ => .error "ConnectionError")
      "2026-10-12" "2026-10-11" 3 = [] :=
  hf_exception_gives_empty_list (fun _ => .error "ConnectionError")
    "2026-10-12" "2026-10-11" 3 "ConnectionError" rfl

/-- Claim C8: if the completion request for a paper raises an exception,
the summarizer returns the fallback string embedding the error message
instead of propagating, so summarization never aborts the run. -/
theorem summarize_falls_back_on_exception (chatComplete : String → Except String String)
    (paper : PaperRecord) (e : String)
    (h : chatComplete (buildPrompt paper) = .error e) :
    summarize_with_ai chatComplete paper = "Summary failed: " ++ e := by
  rw [summarize_with_ai, h]

/-- Witness for claim C8: a completion endpoint that raises yields the
fallback string embedding the error message. -/
theorem summarize_falls_back_on_exception_witness :
    summarize_with_ai (fun _ => .error "APIConnectionError") kwFoo =
      "Summary failed: " ++ "APIConnectionError" :=
  summarize_falls_back_on_exception (fun _ => .error "APIConnectionError") kwFoo
    "APIConnectionError" rfl

/-- Claim C9: if the keyword-fetch phase raises an exception, the caller
catches it and the pipeline's paper list is exactly what it was before the
phase: no record collected during the failed phase survives. -/
theorem keyword_phase_discards_partial_results_on_exception (now : Int)
    (sr : String → Except String (List ArxivResult)) (ks : List String)
    (aps : List PaperRecord) (e : String)
    (h : get_arxiv_papers_by_keywords now sr ks = .error e) :
    keywordPhase now sr ks aps = aps := by
  rw [keywordPhase, h]

/-- Witness for claim C9: the search for "Agents" succeeds (collecting the
fresh paper inside the phase) but the search for "RAG" raises, so the
pipeline's paper list stays empty — the collected record is discarded. -/
theorem keyword_phase_discards_partial_results_on_exception_witness :
    keywordPhase 300000 srPartial ["Agents", "RAG"] [] = [] :=
  keyword_phase_discards_partial_results_on_exception 300000 srPartial
    ["Agents", "RAG"] [] "arxiv HTTPError" rfl
